import Mathlib

/-!
Verification of the ghost-cursor motion library (src/spoof.ts) against its
natural-language specification.  JavaScript floating-point numbers are embedded
as real numbers; every call to Math.random() is passed in as an explicit
parameter modelling a draw from [0, 1).  The geometry module (math.ts) of the
repository is not part of the provided sources, so its primitives are modelled
from the specification and marked as such in their doc comments.
-/

namespace GhostCursor

/-- Modelled from the spec: a 2D point in surface pixel space (the Vector type
of the missing math module). -/
@[ext]
structure Vec where
  x : ℝ
  y : ℝ

/-- Embedding of the Box interface of src/spoof.ts: an axis-aligned rectangle. -/
structure Box where
  x : ℝ
  y : ℝ
  width : ℝ
  height : ℝ

/-- Modelled from the spec: the fixed origin of the missing math module. -/
def origin : Vec := ⟨0, 0⟩

/-- Modelled from the spec: the direction primitive of the missing math module,
the vector leading from a to b. -/
def direction (a b : Vec) : Vec := ⟨b.x - a.x, b.y - a.y⟩

/-- Modelled from the spec: the magnitude primitive of the missing math module,
the Euclidean norm of a vector. -/
noncomputable def magnitude (v : Vec) : ℝ := Real.sqrt (v.x ^ 2 + v.y ^ 2)

/-- Embedding of fitts from src/spoof.ts: with a = 0 and b = 2, it returns
a + b * log2(distance / width + 1). -/
noncomputable def fitts (distance width : ℝ) : ℝ :=
  let a : ℝ := 0
  let b : ℝ := 2
  let id := Real.logb 2 (distance / width + 1)
  a + b * id

/-- Embedding of the BoxOptions interface of src/spoof.ts. -/
structure BoxOptions where
  paddingPercentage : ℝ

open Classical in
/-- Embedding of getRandomBoxPoint from src/spoof.ts.  The optional options
argument carries the padding percentage; r1 and r2 stand for the two calls to
Math.random(), each modelling a draw from [0, 1). -/
noncomputable def getRandomBoxPoint (b : Box) (options : Option BoxOptions)
    (r1 r2 : ℝ) : Vec :=
  let usePadding : Prop := match options with
    | some o => 0 < o.paddingPercentage ∧ o.paddingPercentage < 100
    | none => False
  let p : ℝ := match options with
    | some o => o.paddingPercentage
    | none => 0
  let paddingWidth := if usePadding then b.width * p / 100 else 0
  let paddingHeight := if usePadding then b.height * p / 100 else 0
  ⟨b.x + paddingWidth / 2 + r1 * (b.width - paddingWidth),
   b.y + paddingHeight / 2 + r2 * (b.height - paddingHeight)⟩

/-- Embedding of the overshootThreshold constant of src/spoof.ts. -/
def overshootThreshold : ℝ := 500

/-- Embedding of shouldOvershoot from src/spoof.ts: the magnitude of the
direction from a to b strictly exceeds the overshoot threshold. -/
noncomputable def shouldOvershoot (a b : Vec) : Prop :=
  magnitude (direction a b) > overshootThreshold

/-- Embedding of clampPositive from src/spoof.ts: clamp every coordinate of
every vector to be at least 0. -/
noncomputable def clampPositive (vectors : List Vec) : List Vec :=
  vectors.map fun v => ⟨max 0 v.x, max 0 v.y⟩

/-- Distance between two points written directly from the words of the spec,
for comparison with the composition of the modelled primitives. -/
noncomputable def euclideanDistance (a b : Vec) : ℝ :=
  Real.sqrt ((a.x - b.x) ^ 2 + (a.y - b.y) ^ 2)

lemma magnitude_direction_eq (a b : Vec) :
    magnitude (direction a b) = euclideanDistance a b := by
  unfold magnitude direction euclideanDistance
  ring_nf

/-- C5: shouldOvershoot a b holds iff the Euclidean distance between a and b is
strictly greater than 500; at a distance of exactly 500 it does not hold. -/
theorem shouldOvershoot_iff_dist_gt :
    (∀ a b : Vec, shouldOvershoot a b ↔ euclideanDistance a b > 500) ∧
    (∀ a b : Vec, euclideanDistance a b = 500 → ¬ shouldOvershoot a b) := by
  have key : ∀ a b : Vec, shouldOvershoot a b ↔ euclideanDistance a b > 500 := by
    intro a b
    unfold shouldOvershoot overshootThreshold
    rw [magnitude_direction_eq]
  refine ⟨key, ?_⟩
  intro a b h hov
  have := (key a b).mp hov
  rw [h] at this
  exact lt_irrefl _ this

/-- Witness for C5 at concrete inputs: distance exactly 500 does not overshoot,
distance 600 does. -/
theorem shouldOvershoot_iff_dist_gt_witness :
    ¬ shouldOvershoot ⟨0, 0⟩ ⟨500, 0⟩ ∧ shouldOvershoot ⟨0, 0⟩ ⟨600, 0⟩ := by
  have h500 : euclideanDistance ⟨0, 0⟩ ⟨500, 0⟩ = 500 := by
    unfold euclideanDistance
    rw [show ((0:ℝ) - 500) ^ 2 + ((0:ℝ) - 0) ^ 2 = 500 ^ 2 by norm_num]
    exact Real.sqrt_sq (by norm_num)
  have h600 : euclideanDistance ⟨0, 0⟩ ⟨600, 0⟩ = 600 := by
    unfold euclideanDistance
    rw [show ((0:ℝ) - 600) ^ 2 + ((0:ℝ) - 0) ^ 2 = 600 ^ 2 by norm_num]
    exact Real.sqrt_sq (by norm_num)
  constructor
  · exact shouldOvershoot_iff_dist_gt.2 ⟨0, 0⟩ ⟨500, 0⟩ h500
  · exact (shouldOvershoot_iff_dist_gt.1 ⟨0, 0⟩ ⟨600, 0⟩).mpr (by rw [h600]; norm_num)

/-- C9: fitts equals 2 * log2(distance / width + 1); for positive width it is
strictly increasing in the distance (over nonnegative distances) and
monotonically decreasing in the width. -/
theorem fitts_formula_and_monotone :
    (∀ d w : ℝ, fitts d w = 2 * Real.logb 2 (d / w + 1)) ∧
    (∀ w d1 d2 : ℝ, 0 < w → 0 ≤ d1 → d1 < d2 → fitts d1 w < fitts d2 w) ∧
    (∀ d w1 w2 : ℝ, 0 ≤ d → 0 < w1 → w1 ≤ w2 → fitts d w2 ≤ fitts d w1) := by
  refine ⟨?_, ?_, ?_⟩
  · intro d w
    unfold fitts
    ring
  · intro w d1 d2 hw hd1 hlt
    have hnn : (0:ℝ) ≤ d1 / w := div_nonneg hd1 hw.le
    have h1 : (0:ℝ) < d1 / w + 1 := by linarith
    have h2 : d1 / w + 1 < d2 / w + 1 := by
      have : d1 / w < d2 / w := (div_lt_div_iff_of_pos_right hw).mpr hlt
      linarith
    have hlog := Real.logb_lt_logb (b := 2) (by norm_num) h1 h2
    unfold fitts
    simp only
    linarith
  · intro d w1 w2 hd hw1 hle
    have hdiv : d / w2 ≤ d / w1 := div_le_div_of_nonneg_left hd hw1 hle
    have hnn : (0:ℝ) ≤ d / w2 := div_nonneg hd (lt_of_lt_of_le hw1 hle).le
    have h1 : (0:ℝ) < d / w2 + 1 := by linarith
    have h2 : d / w2 + 1 ≤ d / w1 + 1 := by linarith
    have hlog := Real.logb_le_logb_of_le (b := 2) (by norm_num) h1 h2
    unfold fitts
    simp only
    linarith

/-- Witness for C9 at concrete inputs: fitts is larger at distance 8 than at
distance 3 for width 1, and no larger at width 2 than at width 1 for
distance 3. -/
theorem fitts_formula_and_monotone_witness :
    fitts 3 1 < fitts 8 1 ∧ fitts 3 2 ≤ fitts 3 1 := by
  constructor
  · exact fitts_formula_and_monotone.2.1 1 3 8 (by norm_num) (by norm_num) (by norm_num)
  · exact fitts_formula_and_monotone.2.2 3 1 2 (by norm_num) (by norm_num) (by norm_num)

lemma coordRange (x w pw r : ℝ) (_hpw0 : 0 ≤ pw) (hpww : pw ≤ w)
    (hr0 : 0 ≤ r) (hr1 : r < 1) :
    x + pw / 2 ≤ x + pw / 2 + r * (w - pw) ∧
      x + pw / 2 + r * (w - pw) ≤ x + w - pw / 2 := by
  have h1 : (0:ℝ) ≤ w - pw := by linarith
  have h2 : (0:ℝ) ≤ r * (w - pw) := mul_nonneg hr0 h1
  have h3 : r * (w - pw) ≤ w - pw := mul_le_of_le_one_left h1 hr1.le
  constructor <;> linarith

/-- C7: with a padding percentage strictly between 0 and 100 the random box
point lies in the rectangle inset symmetrically by p percent (p times width
over 200 on each side in x, p times height over 200 in y); with padding at
most 0, at least 100, or no options, it lies in the full rectangle; and for a
box of zero width and height it equals the corner point of the box. -/
theorem getRandomBoxPoint_range :
    (∀ (b : Box) (p r1 r2 : ℝ), 0 ≤ b.width → 0 ≤ b.height →
      0 ≤ r1 → r1 < 1 → 0 ≤ r2 → r2 < 1 → 0 < p → p < 100 →
      b.x + p * b.width / 200 ≤ (getRandomBoxPoint b (some ⟨p⟩) r1 r2).x ∧
      (getRandomBoxPoint b (some ⟨p⟩) r1 r2).x ≤ b.x + b.width - p * b.width / 200 ∧
      b.y + p * b.height / 200 ≤ (getRandomBoxPoint b (some ⟨p⟩) r1 r2).y ∧
      (getRandomBoxPoint b (some ⟨p⟩) r1 r2).y ≤ b.y + b.height - p * b.height / 200) ∧
    (∀ (b : Box) (options : Option BoxOptions) (r1 r2 : ℝ), 0 ≤ b.width → 0 ≤ b.height →
      0 ≤ r1 → r1 < 1 → 0 ≤ r2 → r2 < 1 →
      (match options with
        | some o => o.paddingPercentage ≤ 0 ∨ 100 ≤ o.paddingPercentage
        | none => True) →
      b.x ≤ (getRandomBoxPoint b options r1 r2).x ∧
      (getRandomBoxPoint b options r1 r2).x ≤ b.x + b.width ∧
      b.y ≤ (getRandomBoxPoint b options r1 r2).y ∧
      (getRandomBoxPoint b options r1 r2).y ≤ b.y + b.height) ∧
    (∀ (b : Box) (options : Option BoxOptions) (r1 r2 : ℝ),
      b.width = 0 → b.height = 0 →
      getRandomBoxPoint b options r1 r2 = ⟨b.x, b.y⟩) := by
  refine ⟨?_, ?_, ?_⟩
  · intro b p r1 r2 hw hh hr1 hr1' hr2 hr2' hp0 hp100
    have hcond : (0 < p ∧ p < 100) := ⟨hp0, hp100⟩
    have hxeq : (getRandomBoxPoint b (some ⟨p⟩) r1 r2).x =
        b.x + b.width * p / 100 / 2 + r1 * (b.width - b.width * p / 100) := by
      simp only [getRandomBoxPoint, if_pos hcond]
    have hyeq : (getRandomBoxPoint b (some ⟨p⟩) r1 r2).y =
        b.y + b.height * p / 100 / 2 + r2 * (b.height - b.height * p / 100) := by
      simp only [getRandomBoxPoint, if_pos hcond]
    have hpwx0 : (0:ℝ) ≤ b.width * p / 100 := by positivity
    have hpwxw : b.width * p / 100 ≤ b.width := by nlinarith
    have hpwy0 : (0:ℝ) ≤ b.height * p / 100 := by positivity
    have hpwyh : b.height * p / 100 ≤ b.height := by nlinarith
    have hx := coordRange b.x b.width (b.width * p / 100) r1 hpwx0 hpwxw hr1 hr1'
    have hy := coordRange b.y b.height (b.height * p / 100) r2 hpwy0 hpwyh hr2 hr2'
    rw [hxeq, hyeq]
    refine ⟨by nlinarith [hx.1], by nlinarith [hx.2], by nlinarith [hy.1], by nlinarith [hy.2]⟩
  · intro b options r1 r2 hw hh hr1 hr1' hr2 hr2' hopt
    have hx0 := coordRange b.x b.width 0 r1 le_rfl hw hr1 hr1'
    have hy0 := coordRange b.y b.height 0 r2 le_rfl hh hr2 hr2'
    match options, hopt with
    | none, _ =>
      have hxeq : (getRandomBoxPoint b none r1 r2).x = b.x + 0 / 2 + r1 * (b.width - 0) := by
        simp only [getRandomBoxPoint, if_neg (fun h => h)]
      have hyeq : (getRandomBoxPoint b none r1 r2).y = b.y + 0 / 2 + r2 * (b.height - 0) := by
        simp only [getRandomBoxPoint, if_neg (fun h => h)]
      rw [hxeq, hyeq]
      refine ⟨by linarith [hx0.1], by linarith [hx0.2], by linarith [hy0.1], by linarith [hy0.2]⟩
    | some o, hopt =>
      have hcond : ¬ (0 < o.paddingPercentage ∧ o.paddingPercentage < 100) := by
        rintro ⟨h1, h2⟩
        rcases hopt with h | h <;> linarith
      have hxeq : (getRandomBoxPoint b (some o) r1 r2).x =
          b.x + 0 / 2 + r1 * (b.width - 0) := by
        simp only [getRandomBoxPoint, if_neg hcond]
      have hyeq : (getRandomBoxPoint b (some o) r1 r2).y =
          b.y + 0 / 2 + r2 * (b.height - 0) := by
        simp only [getRandomBoxPoint, if_neg hcond]
      rw [hxeq, hyeq]
      refine ⟨by linarith [hx0.1], by linarith [hx0.2], by linarith [hy0.1], by linarith [hy0.2]⟩
  · intro b options r1 r2 hw hh
    ext
    · show (getRandomBoxPoint b options r1 r2).x = b.x
      simp only [getRandomBoxPoint]
      split_ifs <;> rw [hw] <;> ring
    · show (getRandomBoxPoint b options r1 r2).y = b.y
      simp only [getRandomBoxPoint]
      split_ifs <;> rw [hh] <;> ring

/-- Witness for C7 at concrete inputs: a 100 by 100 box at the origin with
padding 50, a box with an out-of-range padding of 150, and a degenerate box. -/
theorem getRandomBoxPoint_range_witness :
    ((0:ℝ) + 50 * 100 / 200 ≤ (getRandomBoxPoint ⟨0, 0, 100, 100⟩ (some ⟨50⟩) (1/2) (1/2)).x ∧
      (getRandomBoxPoint ⟨0, 0, 100, 100⟩ (some ⟨50⟩) (1/2) (1/2)).x ≤ 0 + 100 - 50 * 100 / 200 ∧
      (0:ℝ) + 50 * 100 / 200 ≤ (getRandomBoxPoint ⟨0, 0, 100, 100⟩ (some ⟨50⟩) (1/2) (1/2)).y ∧
      (getRandomBoxPoint ⟨0, 0, 100, 100⟩ (some ⟨50⟩) (1/2) (1/2)).y ≤ 0 + 100 - 50 * 100 / 200) ∧
    ((0:ℝ) ≤ (getRandomBoxPoint ⟨0, 0, 100, 100⟩ (some ⟨150⟩) (1/2) (1/2)).x ∧
      (getRandomBoxPoint ⟨0, 0, 100, 100⟩ (some ⟨150⟩) (1/2) (1/2)).x ≤ 0 + 100 ∧
      (0:ℝ) ≤ (getRandomBoxPoint ⟨0, 0, 100, 100⟩ (some ⟨150⟩) (1/2) (1/2)).y ∧
      (getRandomBoxPoint ⟨0, 0, 100, 100⟩ (some ⟨150⟩) (1/2) (1/2)).y ≤ 0 + 100) ∧
    getRandomBoxPoint ⟨7, 8, 0, 0⟩ none (3/10) (7/10) = ⟨7, 8⟩ := by
  refine ⟨?_, ?_, ?_⟩
  · exact getRandomBoxPoint_range.1 ⟨0, 0, 100, 100⟩ 50 (1/2) (1/2)
      (by norm_num) (by norm_num) (by norm_num) (by norm_num) (by norm_num) (by norm_num)
      (by norm_num) (by norm_num)
  · exact getRandomBoxPoint_range.2.1 ⟨0, 0, 100, 100⟩ (some ⟨150⟩) (1/2) (1/2)
      (by norm_num) (by norm_num) (by norm_num) (by norm_num) (by norm_num) (by norm_num)
      (Or.inr (by norm_num))
  · exact getRandomBoxPoint_range.2.2 ⟨7, 8, 0, 0⟩ none (3/10) (7/10) rfl rfl

/-- Modelled from the spec: a cubic-like curve given by its control points, the
start point, two randomized interior control points and the end point. -/
structure CubicCurve where
  p0 : Vec
  p1 : Vec
  p2 : Vec
  p3 : Vec

/-- Modelled from the spec: evaluate the cubic curve at parameter t with the
cubic Bernstein weights of its four control points. -/
noncomputable def bezPoint (c : CubicCurve) (t : ℝ) : Vec :=
  ⟨(1 - t) ^ 3 * c.p0.x + 3 * (1 - t) ^ 2 * t * c.p1.x +
      3 * (1 - t) * t ^ 2 * c.p2.x + t ^ 3 * c.p3.x,
   (1 - t) ^ 3 * c.p0.y + 3 * (1 - t) ^ 2 * t * c.p1.y +
      3 * (1 - t) * t ^ 2 * c.p2.y + t ^ 3 * c.p3.y⟩

/-- Modelled from the spec: linear interpolation between two points. -/
def lerp (a b : Vec) (t : ℝ) : Vec :=
  ⟨a.x + t * (b.x - a.x), a.y + t * (b.y - a.y)⟩

/-- Modelled from the spec: bezierCurve of the missing math module chooses two
interior control points offset from the straight line between the endpoints by
a randomized perpendicular jitter whose magnitude is proportional to the
distance between the endpoints (the coefficients j1 and j2 model the
randomness); when spreadOverride is given, the offset magnitude is the
override applied to the normalized perpendicular instead. -/
noncomputable def bezierCurve (a b : Vec) (spreadOverride : Option ℝ)
    (j1 j2 : ℝ) : CubicCurve :=
  let perp : Vec := ⟨a.y - b.y, b.x - a.x⟩
  let off : Vec := match spreadOverride with
    | some s => ⟨s * (perp.x / magnitude perp), s * (perp.y / magnitude perp)⟩
    | none => perp
  { p0 := a
    p1 := ⟨(lerp a b (1/3)).x + j1 * off.x, (lerp a b (1/3)).y + j1 * off.y⟩
    p2 := ⟨(lerp a b (2/3)).x + j2 * off.x, (lerp a b (2/3)).y + j2 * off.y⟩
    p3 := b }

/-- Modelled from the spec: sample the curve into a lookup table of points; the
table always contains the exact start and end point as its first and last
entries and has at least 2 entries; for steps at least 2 it has exactly steps
entries, sampled at evenly spaced parameters from 0 to 1. -/
noncomputable def CubicCurve.getLUT (c : CubicCurve) (steps : ℕ) : List Vec :=
  if 2 ≤ steps then
    (List.range steps).map (fun (i : ℕ) => bezPoint c ((i : ℝ) / ((steps : ℝ) - 1)))
  else [c.p0, c.p3]

/-- Modelled from the spec: approximate the arclength of the curve by
cumulative chord lengths, here over the control polygon of the curve. -/
noncomputable def CubicCurve.length (c : CubicCurve) : ℝ :=
  magnitude (direction c.p0 c.p1) + magnitude (direction c.p1 c.p2) +
    magnitude (direction c.p2 c.p3)

/-- Embedding of the union type of Box and Vector consumed by path in
src/spoof.ts; the source discriminates the two shapes with isBox, which probes
for a width field. -/
inductive Target where
  | point (v : Vec)
  | box (b : Box)

/-- Representative point of a target: a Box is used as a point through its x
and y fields, a point target is itself. -/
def targetPoint : Target → Vec
  | .point v => v
  | .box b => ⟨b.x, b.y⟩

/-- Embedding of path from src/spoof.ts.  The coefficients j1 and j2 model the
randomness consumed by bezierCurve, and r models the Math.random() call behind
baseTime, a draw from [0, 1).  The real step count of the source is rounded up
with the integer ceiling and cast to a natural number for sampling. -/
noncomputable def path (start : Vec) (target : Target) (spreadOverride : Option ℝ)
    (j1 j2 r : ℝ) : List Vec :=
  let defaultWidth : ℝ := 100
  let minSteps : ℝ := 25
  let width : ℝ := match target with
    | .box b => b.width
    | .point _ => defaultWidth
  let curve := bezierCurve start (targetPoint target) spreadOverride j1 j2
  let length := curve.length * 0.8
  let baseTime := r * minSteps
  let steps : ℕ := (⌈(Real.logb 2 (fitts length width + 1) + baseTime) * 3⌉).toNat
  let re := curve.getLUT steps
  clampPositive re

lemma bezPoint_zero (c : CubicCurve) : bezPoint c 0 = c.p0 := by
  ext <;> simp [bezPoint]

lemma bezPoint_one (c : CubicCurve) : bezPoint c 1 = c.p3 := by
  ext <;> simp [bezPoint]

lemma getLUT_length (c : CubicCurve) (steps : ℕ) : 2 ≤ (c.getLUT steps).length := by
  unfold CubicCurve.getLUT
  split_ifs with h
  · simpa using h
  · simp

lemma getLUT_head (c : CubicCurve) (steps : ℕ) : (c.getLUT steps).head? = some c.p0 := by
  unfold CubicCurve.getLUT
  split_ifs with h
  · rw [List.head?_map, List.head?_range]
    have hne : steps ≠ 0 := by omega
    simp [hne, bezPoint_zero]
  · simp

lemma getLUT_last (c : CubicCurve) (steps : ℕ) : (c.getLUT steps).getLast? = some c.p3 := by
  unfold CubicCurve.getLUT
  split_ifs with h
  · obtain ⟨n, rfl⟩ : ∃ n, steps = n + 2 := ⟨steps - 2, by omega⟩
    rw [List.range_succ, List.map_append, List.map_singleton, List.getLast?_concat]
    have harg : ((n + 1 : ℕ) : ℝ) / (((n + 2 : ℕ) : ℝ) - 1) = 1 := by
      push_cast
      rw [show ((n : ℝ) + 2 - 1) = (n : ℝ) + 1 by ring]
      exact div_self (by positivity)
    rw [harg, bezPoint_one]
  · simp

lemma bezierCurve_p0 (a b : Vec) (so : Option ℝ) (j1 j2 : ℝ) :
    (bezierCurve a b so j1 j2).p0 = a := rfl

lemma bezierCurve_p3 (a b : Vec) (so : Option ℝ) (j1 j2 : ℝ) :
    (bezierCurve a b so j1 j2).p3 = b := rfl

/-- C3: every planned path has at least 2 points, starts at the clamped start
point and ends at the clamped representative point of the target. -/
theorem path_endpoints_and_length :
    ∀ (start : Vec) (target : Target) (so : Option ℝ) (j1 j2 r : ℝ),
      2 ≤ (path start target so j1 j2 r).length ∧
      (path start target so j1 j2 r).head? = some ⟨max 0 start.x, max 0 start.y⟩ ∧
      (path start target so j1 j2 r).getLast? =
        some ⟨max 0 (targetPoint target).x, max 0 (targetPoint target).y⟩ := by
  intro start target so j1 j2 r
  unfold path clampPositive
  simp only
  refine ⟨?_, ?_, ?_⟩
  · rw [List.length_map]
    exact getLUT_length _ _
  · rw [List.head?_map, getLUT_head, bezierCurve_p0]
    rfl
  · rw [List.getLast?_map, getLUT_last, bezierCurve_p3]
    rfl

/-- Step-count formula written directly from the words of the spec. -/
noncomputable def specSteps (length width baseTime : ℝ) : ℤ :=
  ⌈(Real.logb 2 (fitts length width + 1) + baseTime) * 3⌉

/-- Effective target width written directly from the words of the spec: the
width of the Box when the target is a Box, the constant 100 otherwise. -/
def specTargetWidth : Target → ℝ
  | .box b => b.width
  | .point _ => 100

/-- C4: path samples the curve at the step count given by the timing law of
the spec, applied to the damped arclength and the effective target width, with
a per-call base time of 25 times a draw from [0, 1). -/
theorem path_step_count :
    (∀ (start : Vec) (target : Target) (so : Option ℝ) (j1 j2 r : ℝ),
      path start target so j1 j2 r =
        clampPositive ((bezierCurve start (targetPoint target) so j1 j2).getLUT
          (specSteps ((bezierCurve start (targetPoint target) so j1 j2).length * 0.8)
            (specTargetWidth target) (r * 25)).toNat)) ∧
    (∀ r : ℝ, 0 ≤ r → r < 1 → 0 ≤ r * 25 ∧ r * 25 < 25) := by
  constructor
  · intro start target so j1 j2 r
    unfold path specSteps specTargetWidth
    cases target <;> rfl
  · intro r h0 h1
    constructor
    · nlinarith
    · nlinarith

/-- Witness for C4 at a concrete input: the base time for the draw one half
lies in [0, 25). -/
theorem path_step_count_witness : (0:ℝ) ≤ (1/2) * 25 ∧ (1/2 : ℝ) * 25 < 25 :=
  path_step_count.2 (1/2) (by norm_num) (by norm_num)

lemma clampPositive_forall (l : List Vec) :
    List.Forall (fun v : Vec => 0 ≤ v.x ∧ 0 ≤ v.y) (clampPositive l) := by
  unfold clampPositive
  rw [List.forall_map_iff]
  induction l with
  | nil => trivial
  | cons v l ih =>
    rw [List.forall_cons]
    exact ⟨⟨le_max_left 0 v.x, le_max_left 0 v.y⟩, ih⟩

/-- C6: every coordinate of every point of any sequence produced by path is at
least 0. -/
theorem path_coords_nonneg :
    ∀ (start : Vec) (target : Target) (so : Option ℝ) (j1 j2 r : ℝ),
      List.Forall (fun v : Vec => 0 ≤ v.x ∧ 0 ≤ v.y) (path start target so j1 j2 r) := by
  intro start target so j1 j2 r
  unfold path
  exact clampPositive_forall _

/-- Embedding of the mutable closure state of createCursor in src/spoof.ts:
previous, the last pointer position, and moving, the preemption flag. -/
structure CState where
  previous : Vec
  moving : Bool

/-- Embedding of toggleRandomMove from src/spoof.ts: moving becomes the
negation of the argument. -/
def toggleRandomMove (random : Bool) (st : CState) : CState :=
  { st with moving := !random }

/-- Environment of one tracePath call.  For the loop iteration with index i,
moveOk i tells whether the call page.mouse.move succeeds (a failure is an
exception that the loop catches), connected i tells whether the browser still
reports a live connection when call i has failed, and movingAt i is the live
value of the moving flag observed by the abort check of iteration i (under
cooperative interleaving it can change between iterations). -/
structure DriverEnv where
  moveOk : ℕ → Bool
  connected : ℕ → Bool
  movingAt : ℕ → Bool

/-- Embedding of the loop of tracePath from src/spoof.ts.  It returns the list
of points for which page.mouse.move succeeded, in order, together with the
final value of the closure variable previous, which the source reassigns after
every successful move.  The source catches every per-point exception, so the
embedding is a total function: no error reaches the caller. -/
def tracePathGo (d : DriverEnv) (abortOnMove : Bool) :
    List Vec → ℕ → Vec → List Vec × Vec
  | [], _, prev => ([], prev)
  | v :: rest, i, prev =>
    if abortOnMove && d.movingAt i then ([], prev)
    else if d.moveOk i then
      (v :: (tracePathGo d abortOnMove rest (i + 1) v).1,
        (tracePathGo d abortOnMove rest (i + 1) v).2)
    else if !(d.connected i) then ([], prev)
    else tracePathGo d abortOnMove rest (i + 1) prev

/-- Embedding of tracePath from src/spoof.ts, starting at loop index 0. -/
def tracePath (d : DriverEnv) (vectors : List Vec) (abortOnMove : Bool)
    (prev : Vec) : List Vec × Vec :=
  tracePathGo d abortOnMove vectors 0 prev

lemma getLast?_cons_getD {α : Type} (v : α) (l : List α) (p : α) :
    ((v :: l).getLast?).getD p = (l.getLast?).getD v := by
  cases l with
  | nil => rfl
  | cons a l =>
    rw [List.getLast?_cons_cons]
    obtain ⟨x, hx⟩ :=
      Option.isSome_iff_exists.mp (List.getLast?_isSome.mpr (List.cons_ne_nil a l))
    rw [hx]
    rfl

lemma tracePathGo_prev_eq (d : DriverEnv) (a : Bool) :
    ∀ (vs : List Vec) (i : ℕ) (prev : Vec),
      (tracePathGo d a vs i prev).2 = ((tracePathGo d a vs i prev).1.getLast?).getD prev
  | [], _, _ => by simp [tracePathGo]
  | v :: rest, i, prev => by
    rw [tracePathGo]
    split_ifs with h1 h2 h3
    · simp
    · rw [getLast?_cons_getD]
      exact tracePathGo_prev_eq d a rest (i + 1) v
    · simp
    · exact tracePathGo_prev_eq d a rest (i + 1) prev

/-- Environment and destination of one randomMove iteration of src/spoof.ts:
rand models the random page point the driver reports, d the per-point driver
outcomes of the trace, and j1, j2, rs the randomness consumed by path. -/
structure WanderEnv where
  rand : Vec
  d : DriverEnv
  j1 : ℝ
  j2 : ℝ
  rs : ℝ

/-- Embedding of one iteration of randomMove from src/spoof.ts: when the
moving flag is clear, trace a path to the random page point with abortOnMove
set, then assign previous to the random destination; the source performs this
assignment even when the trace was aborted.  The delay and the recursive
rescheduling are outside the state model. -/
noncomputable def randomMoveStep (env : WanderEnv) (st : CState) : CState :=
  if st.moving then st
  else
    let _t := tracePath env.d
      (path st.previous (.point env.rand) none env.j1 env.j2 env.rs) true st.previous
    { st with previous := env.rand }

/-- Driver environment in which every pointer move succeeds, used by the
concrete witnesses and counterexamples. -/
def allOkEnv : DriverEnv := ⟨fun _ => true, fun _ => true, fun _ => false⟩

/-- Counterexample for C2 as stated: with every move succeeding and no abort,
already after the first of the two points of a planned trace the controller
variable previous has been reassigned (the state of the remaining trace is the
fold on the suffix started from the first point), so previous changes strictly
in the middle of a trace that is never aborted: after the one-point prefix of
the two-point list it equals the first traced point and differs from both the
value before the trace and the final destination. -/
theorem previous_updated_per_point_counterexample :
    (tracePathGo allOkEnv false ([⟨1, 0⟩, ⟨2, 0⟩].take 1) 0 ⟨0, 0⟩).2 = ⟨1, 0⟩ ∧
    ((⟨1, 0⟩ : Vec) ≠ ⟨0, 0⟩) ∧
    ((⟨1, 0⟩ : Vec) ≠ ⟨2, 0⟩) ∧
    (tracePathGo allOkEnv false [⟨1, 0⟩, ⟨2, 0⟩] 0 ⟨0, 0⟩).2 = ⟨2, 0⟩ := by
  refine ⟨rfl, ?_, ?_, rfl⟩
  · intro h
    have hx : (1 : ℝ) = 0 := congrArg Vec.x h
    norm_num at hx
  · intro h
    have hx : (1 : ℝ) = 2 := congrArg Vec.x h
    norm_num at hx

lemma tracePathGo_all_ok (d : DriverEnv) :
    ∀ (vs : List Vec) (i : ℕ) (prev : Vec), (∀ k, i ≤ k → d.moveOk k = true) →
      (tracePathGo d false vs i prev).1 = vs
  | [], _, _, _ => rfl
  | v :: rest, i, prev, h => by
    rw [tracePathGo]
    rw [if_neg (by simp), if_pos (h i le_rfl)]
    simp only [List.cons.injEq, true_and]
    exact tracePathGo_all_ok d rest (i + 1) v fun k hk => h k (by omega)

/-- C8: during tracePath a single failed pointer move is skipped and tracing
continues with the next point, so with exactly one transient failure and a
live connection the traced points are the planned list with only the failed
index removed; when the browser reports itself disconnected at the failing
call, tracing stops at once and the traced points are exactly those before the
failure.  The embedding is a total function because the source catches every
per-point exception: no error is raised to the caller in either case. -/
theorem tracePath_transient_failure_and_disconnect :
    (∀ (d : DriverEnv) (vs : List Vec) (i j : ℕ) (prev : Vec), i ≤ j →
      (∀ k, d.moveOk k = false ↔ k = j) → d.connected j = true →
      (tracePathGo d false vs i prev).1 = vs.eraseIdx (j - i)) ∧
    (∀ (d : DriverEnv) (vs : List Vec) (i j : ℕ) (prev : Vec), i ≤ j →
      (∀ k, k < j → d.moveOk k = true) → d.moveOk j = false → d.connected j = false →
      (tracePathGo d false vs i prev).1 = vs.take (j - i)) := by
  constructor
  · intro d vs
    induction vs with
    | nil => intro i j prev _ _ _; simp [tracePathGo]
    | cons v rest ih =>
      intro i j prev hij hfail hconn
      rw [tracePathGo, if_neg (by simp)]
      by_cases hji : i = j
      · subst hji
        rw [if_neg (by rw [(hfail i).mpr rfl]; exact Bool.false_ne_true)]
        rw [if_neg (by rw [hconn]; simp)]
        have : (tracePathGo d false rest (i + 1) prev).1 = rest :=
          tracePathGo_all_ok d rest (i + 1) prev (fun k hk => by
            cases hcase : d.moveOk k with
            | true => rfl
            | false => exact absurd ((hfail k).mp hcase) (by omega))
        rw [this]
        simp
      · have hlt : i < j := lt_of_le_of_ne hij hji
        have hok : d.moveOk i = true := by
          cases hcase : d.moveOk i with
          | true => rfl
          | false => exact absurd ((hfail i).mp hcase) (by omega)
        rw [if_pos hok]
        obtain ⟨m, hm⟩ : ∃ m, j - i = m + 1 := ⟨j - i - 1, by omega⟩
        rw [hm, List.eraseIdx_cons_succ]
        have := ih (i + 1) j v (by omega) hfail hconn
        rw [show j - (i + 1) = m by omega] at this
        rw [this]
  · intro d vs
    induction vs with
    | nil => intro i j prev _ _ _ _; simp [tracePathGo]
    | cons v rest ih =>
      intro i j prev hij hok hfail hconn
      rw [tracePathGo, if_neg (by simp)]
      by_cases hji : i = j
      · subst hji
        rw [if_neg (by rw [hfail]; exact Bool.false_ne_true)]
        rw [if_pos (by rw [hconn]; rfl)]
        simp
      · have hlt : i < j := lt_of_le_of_ne hij hji
        rw [if_pos (hok i hlt)]
        obtain ⟨m, hm⟩ : ∃ m, j - i = m + 1 := ⟨j - i - 1, by omega⟩
        rw [hm, List.take_succ_cons]
        have := ih (i + 1) j v (by omega) hok hfail hconn
        rw [show j - (i + 1) = m by omega] at this
        rw [this]

/-- Driver environment whose second pointer move fails with the browser still
connected, used by the concrete witness. -/
def failAt1Env : DriverEnv := ⟨fun k => !(k == 1), fun _ => true, fun _ => false⟩

/-- Driver environment whose second pointer move fails with the browser
disconnected, used by the concrete witness. -/
def discAt1Env : DriverEnv := ⟨fun k => !(k == 1), fun _ => false, fun _ => false⟩

/-- Witness for C8 at concrete inputs: on a three-point trace whose second
move fails, a connected browser yields the first and third points traced,
while a disconnected browser stops after the first point. -/
theorem tracePath_transient_failure_and_disconnect_witness :
    (tracePathGo failAt1Env false [⟨1, 0⟩, ⟨2, 0⟩, ⟨3, 0⟩] 0 ⟨0, 0⟩).1 =
      [⟨1, 0⟩, ⟨3, 0⟩] ∧
    (tracePathGo discAt1Env false [⟨1, 0⟩, ⟨2, 0⟩, ⟨3, 0⟩] 0 ⟨0, 0⟩).1 = [⟨1, 0⟩] := by
  constructor
  · have := tracePath_transient_failure_and_disconnect.1 failAt1Env
      [⟨1, 0⟩, ⟨2, 0⟩, ⟨3, 0⟩] 0 1 ⟨0, 0⟩ (by omega)
      (fun k => by simp [failAt1Env]) rfl
    simpa using this
  · have := tracePath_transient_failure_and_disconnect.2 discAt1Env
      [⟨1, 0⟩, ⟨2, 0⟩, ⟨3, 0⟩] 0 1 ⟨0, 0⟩ (by omega)
      (fun k hk => by simp [discAt1Env]; omega) rfl rfl
    simpa using this

/-- Embedding of the overshootSpread constant of createCursor in src/spoof.ts. -/
def overshootSpread : ℝ := 10

/-- Embedding of the overshootRadius constant of createCursor in src/spoof.ts. -/
def overshootRadius : ℝ := 120

/-- Modelled from the spec: the overshoot primitive of the missing math module
computes an aim point offset from the destination by a randomized direction
within the given radius; a and b model the random offset coefficients. -/
def overshootPoint (v : Vec) (radius a b : ℝ) : Vec :=
  ⟨v.x + radius * a, v.y + radius * b⟩

/-- Hard errors that move surfaces to its caller: the selector resolved to no
element, or the driver could not report the element bounds. -/
inductive OpError where
  | targetNotFound
  | geometryUnavailable

/-- Result of an explicit operation: the error surfaced to the caller, if any,
and the final controller state. -/
structure OpResult where
  res : Except OpError Unit
  state : CState

/-- Environment of one move call: found tells whether selector resolution
(after any caller-supplied wait) yielded an element, elemBox is the Box that
the driver reported for it (none models a null box), r1 and r2 model the
randomness of getRandomBoxPoint, ovA and ovB the randomness of the overshoot
aim point, j1, j2, rs the randomness of the main path, k1, k2, ks the
randomness of the corrective path, and d1, d2 the per-point driver outcomes of
the two traces.  The wait and the best-effort scroll into view act only on the
external driver and are folded into the environment. -/
structure MoveEnv where
  found : Bool
  elemBox : Option Box
  r1 : ℝ
  r2 : ℝ
  ovA : ℝ
  ovB : ℝ
  j1 : ℝ
  j2 : ℝ
  rs : ℝ
  k1 : ℝ
  k2 : ℝ
  ks : ℝ
  d1 : DriverEnv
  d2 : DriverEnv

open Classical in
/-- Embedding of move from src/spoof.ts.  It first sets the moving flag
through toggleRandomMove false; a failed resolution or missing box throws with
the flag still set (the source has no try block around these throws); on
success it picks a random destination in the box, decides overshoot, traces
the main path and, when overshooting, a tighter corrective path to a Box at
the destination with the element dimensions, reassigns previous to the chosen
destination and finally clears the flag through toggleRandomMove true. -/
noncomputable def move (env : MoveEnv) (options : Option BoxOptions)
    (st : CState) : OpResult :=
  let st1 := toggleRandomMove false st
  if !env.found then ⟨.error .targetNotFound, st1⟩
  else
    match env.elemBox with
    | none => ⟨.error .geometryUnavailable, st1⟩
    | some box =>
      let destination := getRandomBoxPoint box options env.r1 env.r2
      let dimensions : Box := ⟨destination.x, destination.y, box.width, box.height⟩
      let overshooting := shouldOvershoot st1.previous destination
      let toPt := if overshooting then
          overshootPoint destination overshootRadius env.ovA env.ovB
        else destination
      let t1 := tracePath env.d1
        (path st1.previous (.point toPt) none env.j1 env.j2 env.rs) false st1.previous
      let _t2 := if overshooting then
          tracePath env.d2
            (path toPt (.box dimensions) (some overshootSpread) env.k1 env.k2 env.ks) false t1.2
        else t1
      ⟨.ok (), toggleRandomMove true { st1 with previous := destination }⟩

/-- Environment of one click call: moveEnv is the environment of the inner
move when a selector was given, pressOk tells whether the press-and-release
calls succeed; their failure is caught and logged, so it never alters the
outcome.  The settle delay acts only on the scheduler and is not part of the
state model. -/
structure ClickEnv where
  moveEnv : Option MoveEnv
  pressOk : Bool

open Classical in
/-- Embedding of click from src/spoof.ts: set the moving flag, move to the
selector when one was given (an error of move propagates with the flag still
set), set the flag again, press and release with any failure caught, then
clear the flag through toggleRandomMove true. -/
noncomputable def click (env : ClickEnv) (options : Option BoxOptions)
    (st : CState) : OpResult :=
  let st1 := toggleRandomMove false st
  match env.moveEnv with
  | some me =>
    let mres := move me options st1
    match mres.res with
    | .error e => ⟨.error e, mres.state⟩
    | .ok _ =>
      let st2 := toggleRandomMove false mres.state
      ⟨.ok (), toggleRandomMove true st2⟩
  | none => ⟨.ok (), toggleRandomMove true st1⟩

/-- Embedding of moveTo from src/spoof.ts: set the moving flag, trace the
planned path to the literal destination (previous ends at the last reached
point of the trace), then clear the flag through toggleRandomMove true. -/
noncomputable def moveTo (d : DriverEnv) (j1 j2 r : ℝ) (destination : Vec)
    (st : CState) : CState :=
  let st1 := toggleRandomMove false st
  let t := tracePath d (path st1.previous (.point destination) none j1 j2 r) false st1.previous
  toggleRandomMove true { st1 with previous := t.2 }

/-- C10: every explicit operation that completes without error ends with
toggleRandomMove true, so the moving flag is false afterwards, for every
initial state, in particular after an earlier toggleRandomMove false. -/
theorem explicit_ops_reenable_wandering :
    (∀ (env : MoveEnv) (options : Option BoxOptions) (st : CState),
      (move env options st).res = .ok () → (move env options st).state.moving = false) ∧
    (∀ (env : ClickEnv) (options : Option BoxOptions) (st : CState),
      (click env options st).res = .ok () → (click env options st).state.moving = false) ∧
    (∀ (d : DriverEnv) (j1 j2 r : ℝ) (dest : Vec) (st : CState),
      (moveTo d j1 j2 r dest st).moving = false) := by
  refine ⟨?_, ?_, ?_⟩
  · intro env options st h
    cases hf : env.found with
    | false =>
      exfalso
      simp [move, hf] at h
    | true =>
      cases hb : env.elemBox with
      | none =>
        exfalso
        simp [move, hf, hb] at h
      | some box =>
        simp [move, hf, hb, toggleRandomMove]
  · intro env options st h
    cases he : env.moveEnv with
    | none => simp [click, he, toggleRandomMove]
    | some me =>
      cases hm : (move me options (toggleRandomMove false st)).res with
      | error e =>
        exfalso
        simp [click, he, hm] at h
      | ok u =>
        simp only [click, he]
        rw [hm]
        simp [toggleRandomMove]
  · intro d j1 j2 r dest st
    rfl

/-- Move environment that finds a degenerate element box at the origin, used
by the concrete witnesses. -/
def moveOkEnv : MoveEnv :=
  ⟨true, some ⟨0, 0, 0, 0⟩, 0, 0, 0, 0, 0, 0, 0, 0, 0, 0, allOkEnv, allOkEnv⟩

/-- Witness for C10 at concrete inputs: a successful move, a successful click
through that move, and a moveTo, each started with the moving flag set, end
with the flag cleared. -/
theorem explicit_ops_reenable_wandering_witness :
    (move moveOkEnv none ⟨⟨0, 0⟩, true⟩).state.moving = false ∧
    (click ⟨some moveOkEnv, true⟩ none ⟨⟨0, 0⟩, true⟩).state.moving = false ∧
    (moveTo allOkEnv 0 0 0 ⟨5, 5⟩ ⟨⟨0, 0⟩, true⟩).moving = false := by
  refine ⟨?_, ?_, ?_⟩
  · exact explicit_ops_reenable_wandering.1 moveOkEnv none ⟨⟨0, 0⟩, true⟩
      (by unfold move moveOkEnv; rfl)
  · exact explicit_ops_reenable_wandering.2.1 ⟨some moveOkEnv, true⟩ none ⟨⟨0, 0⟩, true⟩
      (by unfold click move moveOkEnv; rfl)
  · exact explicit_ops_reenable_wandering.2.2 allOkEnv 0 0 0 ⟨5, 5⟩ ⟨⟨0, 0⟩, true⟩

/-- Move environment whose selector resolution finds nothing, used by the
concrete counterexample and witness. -/
def notFoundEnv : MoveEnv :=
  ⟨false, none, 0, 0, 0, 0, 0, 0, 0, 0, 0, 0, allOkEnv, allOkEnv⟩

/-- Counterexample for C1 as stated: when selector resolution yields no
element, move does fail with the hard TargetNotFound error, but the Busy flag
is not cleared before the error reaches the caller: starting from a state in
which wandering was permitted, the failed call leaves moving set to true, not
false as claimed. -/
theorem move_notfound_flag_counterexample :
    (move notFoundEnv none ⟨⟨0, 0⟩, false⟩).res = .error .targetNotFound ∧
    (move notFoundEnv none ⟨⟨0, 0⟩, false⟩).state.moving = true := by
  exact ⟨rfl, rfl⟩

/-- C1 amended: when selector resolution yields no element after any
caller-supplied wait, move (and click through move) fails with a hard
TargetNotFound error, but the Busy flag is left set: moving remains true when
the error reaches the caller, so wandering stays preempted. -/
theorem move_notfound_hard_error_flag_left_set :
    (∀ (env : MoveEnv) (options : Option BoxOptions) (st : CState), env.found = false →
      (move env options st).res = .error .targetNotFound ∧
      (move env options st).state.moving = true) ∧
    (∀ (cenv : ClickEnv) (me : MoveEnv) (options : Option BoxOptions) (st : CState),
      cenv.moveEnv = some me → me.found = false →
      (click cenv options st).res = .error .targetNotFound ∧
      (click cenv options st).state.moving = true) := by
  have hmove : ∀ (env : MoveEnv) (options : Option BoxOptions) (st : CState),
      env.found = false →
      move env options st =
        ⟨.error .targetNotFound, toggleRandomMove false st⟩ := by
    intro env options st h
    unfold move
    rw [h]
    rfl
  constructor
  · intro env options st h
    rw [hmove env options st h]
    exact ⟨rfl, rfl⟩
  · intro cenv me options st hc h
    have h1 := hmove me options (toggleRandomMove false st) h
    simp only [click, hc]
    rw [h1]
    simp [toggleRandomMove]

/-- Witness for C1 amended at concrete inputs: a move and a click whose
selector resolution finds nothing fail with TargetNotFound and leave the
moving flag set. -/
theorem move_notfound_hard_error_flag_left_set_witness :
    ((move notFoundEnv none ⟨⟨3, 4⟩, true⟩).res = .error .targetNotFound ∧
      (move notFoundEnv none ⟨⟨3, 4⟩, true⟩).state.moving = true) ∧
    ((click ⟨some notFoundEnv, true⟩ none ⟨⟨3, 4⟩, false⟩).res = .error .targetNotFound ∧
      (click ⟨some notFoundEnv, true⟩ none ⟨⟨3, 4⟩, false⟩).state.moving = true) :=
  ⟨move_notfound_hard_error_flag_left_set.1 notFoundEnv none ⟨⟨3, 4⟩, true⟩ rfl,
    move_notfound_hard_error_flag_left_set.2 ⟨some notFoundEnv, true⟩ notFoundEnv none
      ⟨⟨3, 4⟩, false⟩ rfl rfl⟩

/-- C2 amended: previous always equals the last point actually reached, also
mid-trace and after an abort: the final previous of a trace is the last
successfully moved point, or the incoming previous when no point was moved;
processing a point list is the continuation of processing any of its prefixes,
so the intermediate states of a trace are the states after its prefixes and a
successful step rebinds previous to its point at once; a randomMove iteration
afterwards sets previous to the intended random destination whenever the flag
was clear, even when its trace was aborted; and a move that found its element
box ends with previous set to the chosen destination inside that box. -/
theorem previous_updated_per_point :
    (∀ (d : DriverEnv) (a : Bool) (vs : List Vec) (i : ℕ) (prev : Vec),
      (tracePathGo d a vs i prev).2 = ((tracePathGo d a vs i prev).1.getLast?).getD prev) ∧
    (∀ (d : DriverEnv) (a : Bool) (v : Vec) (rest : List Vec) (i : ℕ) (prev : Vec),
      (a && d.movingAt i) = false → d.moveOk i = true →
      tracePathGo d a (v :: rest) i prev =
        ((v :: (tracePathGo d a rest (i + 1) v).1), (tracePathGo d a rest (i + 1) v).2)) ∧
    (∀ (env : WanderEnv) (st : CState),
      (randomMoveStep env st).previous = if st.moving then st.previous else env.rand) ∧
    (∀ (env : MoveEnv) (options : Option BoxOptions) (st : CState) (box : Box),
      env.found = true → env.elemBox = some box →
      (move env options st).state.previous = getRandomBoxPoint box options env.r1 env.r2) := by
  refine ⟨tracePathGo_prev_eq, ?_, ?_, ?_⟩
  · intro d a v rest i prev h1 h2
    rw [tracePathGo]
    rw [if_neg (by rw [h1]; exact Bool.false_ne_true), if_pos h2]
  · intro env st
    by_cases h : st.moving
    · simp [randomMoveStep, h]
    · simp [randomMoveStep, h]
  · intro env options st box hf hb
    simp [move, hf, hb, toggleRandomMove]

/-- Witness for C2 at concrete inputs: with both moves succeeding and no
abort, one successful step of a two-point trace continues as the trace of the
rest with previous rebound to the first point; and a completed move through a
found element box leaves previous at the point chosen inside that box. -/
theorem previous_updated_per_point_witness :
    (tracePathGo allOkEnv false [⟨1, 0⟩, ⟨2, 0⟩] 0 ⟨0, 0⟩ =
      ((⟨1, 0⟩ : Vec) :: (tracePathGo allOkEnv false [⟨2, 0⟩] 1 ⟨1, 0⟩).1,
        (tracePathGo allOkEnv false [⟨2, 0⟩] 1 ⟨1, 0⟩).2)) ∧
    (move moveOkEnv none ⟨⟨9, 9⟩, false⟩).state.previous =
      getRandomBoxPoint ⟨0, 0, 0, 0⟩ none 0 0 :=
  ⟨previous_updated_per_point.2.1 allOkEnv false ⟨1, 0⟩ [⟨2, 0⟩] 0 ⟨0, 0⟩ rfl rfl,
    previous_updated_per_point.2.2.2 moveOkEnv none ⟨⟨9, 9⟩, false⟩ ⟨0, 0, 0, 0⟩ rfl rfl⟩

end GhostCursor
